import Mathlib

/-!
Shallow embedding of the cart/stock logic of the `tienda` Django application
(`tienda/models.py`, `tienda/views.py`).

The relational state (Producto, Carrito, ItemCarrito rows) is modelled as
lists of records; each view function becomes a function from a database
state (plus its request parameters) to a new state together with an
`Outcome` abstracting the message / HTTP status the view produces.
Machine integers of the source are modelled as `Int` (quantities coming
from POST data may be negative) and `Nat` (row ids, user ids).
-/

/-- A `Producto` row (models.py, class Producto).  `stock` is a
`PositiveIntegerField` in the database but is modelled as `Int` so that
non-negativity is a provable invariant rather than a typing assumption;
`precio` is modelled in cents; `creado` is a timestamp. -/
structure Producto where
  id : Nat
  nombre : String
  marca : String
  modelo : String
  precio : Int
  stock : Int
  categoriaId : Nat
  creado : Nat
deriving DecidableEq

/-- A `Carrito` row (models.py, class Carrito): `usuario` is a
`OneToOneField` to the user. -/
structure Carrito where
  id : Nat
  usuarioId : Nat
deriving DecidableEq

/-- An `ItemCarrito` row (models.py, class ItemCarrito). -/
structure ItemCarrito where
  id : Nat
  carritoId : Nat
  productoId : Nat
  cantidad : Int
deriving DecidableEq

/-- The database state: the three tables together with the id sequences
used for newly inserted rows. -/
structure DB where
  productos : List Producto
  carritos : List Carrito
  items : List ItemCarrito
  nextCarritoId : Nat
  nextItemId : Nat
deriving DecidableEq

/-- Outcome of a view: which message / HTTP status the request ends with.
`notFound` is `get_object_or_404` raising Http404; `insufficientStock`
carries the available stock reported in the warning message;
`invalidQuantity` is the `ValueError` branch of `actualizar_carrito`. -/
inductive Outcome where
  | ok
  | notFound
  | insufficientStock (disponible : Int)
  | emptyCart
  | invalidQuantity
deriving DecidableEq

/-- `Producto.objects.get(id=...)` / `get_object_or_404(Producto, ...)`. -/
def findProducto (db : DB) (pid : Nat) : Option Producto :=
  db.productos.find? (fun p => p.id == pid)

/-- Lookup of the `Carrito` row of a user (`Carrito.objects.get(usuario=...)`). -/
def findCarrito (db : DB) (u : Nat) : Option Carrito :=
  db.carritos.find? (fun c => c.usuarioId == u)

/-- `ItemCarrito.objects.get(carrito=..., producto=...)`. -/
def findItem (db : DB) (cid pid : Nat) : Option ItemCarrito :=
  db.items.find? (fun i => i.carritoId == cid && i.productoId == pid)

/-- Does item `i` belong to the cart of user `u` (the
`carrito__usuario=request.user` join condition)? -/
def duenoItem (db : DB) (i : ItemCarrito) (u : Nat) : Bool :=
  match db.carritos.find? (fun c => c.id == i.carritoId) with
  | some c => c.usuarioId == u
  | none => false

/-- `get_object_or_404(ItemCarrito, id=item_id, carrito__usuario=request.user)`. -/
def findItemDe (db : DB) (u itemId : Nat) : Option ItemCarrito :=
  db.items.find? (fun i => i.id == itemId && duenoItem db i u)

/-- `Carrito.objects.get_or_create(usuario=request.user)`. -/
def getOrCreateCarrito (db : DB) (u : Nat) : DB × Carrito :=
  match findCarrito db u with
  | some c => (db, c)
  | none =>
    let c : Carrito := ⟨db.nextCarritoId, u⟩
    ({ db with carritos := db.carritos ++ [c],
               nextCarritoId := db.nextCarritoId + 1 }, c)

/-- `item.save()`: write back an item row, matched by primary key. -/
def guardarItem (db : DB) (i : ItemCarrito) : DB :=
  { db with items := db.items.map (fun j => if j.id == i.id then i else j) }

/-- `item.delete()`. -/
def borrarItem (db : DB) (itemId : Nat) : DB :=
  { db with items := db.items.filter (fun j => j.id != itemId) }

/-- `producto.save()`: write back a product row, matched by primary key. -/
def guardarProducto (db : DB) (p : Producto) : DB :=
  { db with productos := db.productos.map (fun q => if q.id == p.id then p else q) }

/-- `carrito.items.all()` (the reverse foreign key `related_name='items'`). -/
def itemsDe (db : DB) (cid : Nat) : List ItemCarrito :=
  db.items.filter (fun i => i.carritoId == cid)

/-- views.py `agregar_al_carrito(request, producto_id)`: fetch the product
(404 if absent), get-or-create the user's cart; if an item for the pair
already exists, increment its quantity only when `cantidad < stock`
(warning otherwise); if no item exists, create one with quantity 1. -/
def agregar_al_carrito (db : DB) (u productoId : Nat) : DB × Outcome :=
  match findProducto db productoId with
  | none => (db, .notFound)
  | some producto =>
    let par := getOrCreateCarrito db u
    let db1 := par.1
    let carrito := par.2
    match findItem db1 carrito.id producto.id with
    | some item =>
      if item.cantidad < producto.stock then
        (guardarItem db1 { item with cantidad := item.cantidad + 1 }, .ok)
      else
        (db1, .insufficientStock producto.stock)
    | none =>
      let nuevo : ItemCarrito := ⟨db1.nextItemId, carrito.id, producto.id, 1⟩
      ({ db1 with items := db1.items ++ [nuevo],
                  nextItemId := db1.nextItemId + 1 }, .ok)

/-- The `action` POST field of `actualizar_carrito`: any string other than
`increase` / `decrease` falls through to the manual-quantity branch, whose
`cantidad` field is `none` when `int(...)` raises (ValueError), and
otherwise the parsed integer (the field defaults to 1 when missing). -/
inductive Accion where
  | increase
  | decrease
  | otra (cantidad : Option Int)
deriving DecidableEq

/-- views.py `actualizar_carrito(request, item_id)`:
ownership-checked item fetch (404 on failure), then
`increase` (bounded by stock), `decrease` (deletes at quantity 1), or a
manual update (delete when `≤ 0`, stock check, else set).  The lookup of
`item.producto` cannot fail in the source thanks to the foreign-key
constraint; the `none` branch here is dead under referential integrity. -/
def actualizar_carrito (db : DB) (u itemId : Nat) (accion : Accion) : DB × Outcome :=
  match findItemDe db u itemId with
  | none => (db, .notFound)
  | some item =>
    match findProducto db item.productoId with
    | none => (db, .notFound)
    | some producto =>
      match accion with
      | .increase =>
        if item.cantidad < producto.stock then
          (guardarItem db { item with cantidad := item.cantidad + 1 }, .ok)
        else
          (db, .insufficientStock producto.stock)
      | .decrease =>
        if 1 < item.cantidad then
          (guardarItem db { item with cantidad := item.cantidad - 1 }, .ok)
        else
          (borrarItem db item.id, .ok)
      | .otra none => (db, .invalidQuantity)
      | .otra (some n) =>
        if n ≤ 0 then
          (borrarItem db item.id, .ok)
        else if producto.stock < n then
          (db, .insufficientStock producto.stock)
        else
          (guardarItem db { item with cantidad := n }, .ok)

/-- views.py `eliminar_del_carrito(request, item_id)`. -/
def eliminar_del_carrito (db : DB) (u itemId : Nat) : DB × Outcome :=
  match findItemDe db u itemId with
  | none => (db, .notFound)
  | some item => (borrarItem db item.id, .ok)

/-- views.py `vaciar_carrito(request)`: `get_object_or_404(Carrito, ...)`
(404 when the user has no cart row), then delete all its items. -/
def vaciar_carrito (db : DB) (u : Nat) : DB × Outcome :=
  match findCarrito db u with
  | none => (db, .notFound)
  | some c =>
    ({ db with items := db.items.filter (fun i => i.carritoId != c.id) }, .ok)

/-- The stock-validation loop of `procesar_pago`: returns the outcome of
the first failing item (`None` when every item passes).  A missing
product row is impossible in the source (foreign key). -/
def verificarStock (db : DB) : List ItemCarrito → Option Outcome
  | [] => none
  | i :: rest =>
    match findProducto db i.productoId with
    | none => some .notFound
    | some p =>
      if p.stock < i.cantidad then some (.insufficientStock p.stock)
      else verificarStock db rest

/-- The stock-update loop of `procesar_pago`:
`producto.stock -= item.cantidad; producto.save()` for each item. -/
def descontarStock (db : DB) : List ItemCarrito → DB
  | [] => db
  | i :: rest =>
    let db1 :=
      match findProducto db i.productoId with
      | none => db
      | some p => guardarProducto db { p with stock := p.stock - i.cantidad }
    descontarStock db1 rest

/-- views.py `procesar_pago(request)`: fetch the cart (404 if absent),
fail with a warning on an empty cart, pre-validate every item against
stock, and only then decrement stock per item and delete the cart's
items. -/
def procesar_pago (db : DB) (u : Nat) : DB × Outcome :=
  match findCarrito db u with
  | none => (db, .notFound)
  | some carrito =>
    let items := itemsDe db carrito.id
    if items.isEmpty then (db, .emptyCart)
    else
      match verificarStock db items with
      | some out => (db, out)
      | none =>
        let db1 := descontarStock db items
        ({ db1 with items := db1.items.filter (fun i => i.carritoId != carrito.id) },
         .ok)

/-- Is `q` a contiguous sublist of `s`?  (The `icontains` lookup of the
ORM, on the character lists of the lowercased strings.) -/
def contieneSub (q : List Char) : List Char → Bool
  | [] => q.isEmpty
  | c :: rest => List.isPrefixOf q (c :: rest) || contieneSub q rest

/-- Case-insensitive containment, modelling `campo__icontains=q`. -/
def icontains (s q : String) : Bool :=
  contieneSub q.toLower.toList s.toLower.toList

/-- `Paginator.num_pages` with `per_page=12`, default orphans and
`allow_empty_first_page`: `ceil(max(1, count) / 12)`. -/
def numPages (n : Nat) : Nat := max 1 ((n + 11) / 12)

/-- Page-number handling of `catalogo`: a non-integer `page` parameter
(`none`) raises PageNotAnInteger, caught to page 1; an integer outside
`1..num_pages` raises EmptyPage, caught to the last page. -/
def clampPage (page : Option Int) (np : Nat) : Nat :=
  match page with
  | none => 1
  | some n => if n < 1 then np else if (np : Int) < n then np else n.toNat

/-- `paginator.page(p)`: the slice of 12 products for (1-based) page `p`. -/
def pagina (l : List Producto) (page : Option Int) : List Producto :=
  let p := clampPage page (numPages l.length)
  (l.drop ((p - 1) * 12)).take 12

/-- views.py `catalogo(request)`: products filtered by `stock__gt=0`,
ordered by `-creado`, optionally filtered by category and by a text
query over nombre/marca/modelo, then paginated (12 per page).
`none` for `categoriaId` / `q` covers both an absent and an empty
parameter (both falsy in the source). -/
def catalogo (db : DB) (categoriaId : Option Nat) (q : Option String)
    (page : Option Int) : List Producto :=
  let l0 := (db.productos.filter (fun p => 0 < p.stock)).insertionSort
    (fun a b => b.creado ≤ a.creado)
  let l1 := match categoriaId with
    | none => l0
    | some cid => l0.filter (fun p => p.categoriaId == cid)
  let l2 := match q with
    | none => l1
    | some s => l1.filter
        (fun p => icontains p.nombre s || icontains p.marca s || icontains p.modelo s)
  pagina l2 page

/-- views.py `producto_detalle(request, pk)`: plain `get_object_or_404`,
with no stock filter. -/
def producto_detalle (db : DB) (pk : Nat) : Option Producto :=
  findProducto db pk

/-- One cart-interface request, with its parameters. -/
inductive Op where
  | agregar (u productoId : Nat)
  | actualizar (u itemId : Nat) (a : Accion)
  | eliminar (u itemId : Nat)
  | vaciar (u : Nat)
  | procesar (u : Nat)
deriving DecidableEq

/-- The state reached after one request (outcome discarded). -/
def paso (db : DB) : Op → DB
  | .agregar u pid => (agregar_al_carrito db u pid).1
  | .actualizar u iid a => (actualizar_carrito db u iid a).1
  | .eliminar u iid => (eliminar_del_carrito db u iid).1
  | .vaciar u => (vaciar_carrito db u).1
  | .procesar u => (procesar_pago db u).1

/-- Run a sequence of requests. -/
def ejecutar (db : DB) : List Op → DB
  | [] => db
  | op :: ops => ejecutar (paso db op) ops

/-- The initial database: a product catalog, no carts, no cart items. -/
def inicial (productos : List Producto) : DB :=
  ⟨productos, [], [], 0, 0⟩

/-- The `(cartId, productId)` key of a cart item (unique in the schema:
`Carrito.productos` goes through `ItemCarrito`). -/
def clave (i : ItemCarrito) : Nat × Nat := (i.carritoId, i.productoId)

/-! ### Sample rows used by the concrete witnesses -/

/-- Sample product with stock 5. -/
def prodA : Producto := ⟨1, "laptop", "acme", "x1", 100, 5, 1, 10⟩

/-- Sample product with stock 2. -/
def prodB : Producto := ⟨2, "mouse", "acme", "m2", 200, 2, 1, 20⟩

/-- Sample product with stock 0 (out of stock). -/
def prodCero : Producto := ⟨3, "teclado", "acme", "k3", 300, 0, 1, 30⟩

/-! ### C9: empty-cart checkout -/

/-- C9: for every user whose cart exists and contains no items,
`procesar_pago` fails with the empty-cart warning and the database is
returned unchanged: no product stock, cart or item row is touched. -/
theorem procesar_pago_carrito_vacio (db : DB) (u : Nat) (c : Carrito)
    (hc : findCarrito db u = some c) (hvacio : itemsDe db c.id = []) :
    procesar_pago db u = (db, Outcome.emptyCart) := by
  simp [procesar_pago, hc, hvacio]

/-- Witness for C9 at a concrete database: user 1 has cart 0 with no
items. -/
theorem procesar_pago_carrito_vacio_witness :
    procesar_pago ⟨[prodA], [⟨0, 1⟩], [], 1, 0⟩ 1 =
      (⟨[prodA], [⟨0, 1⟩], [], 1, 0⟩, Outcome.emptyCart) :=
  procesar_pago_carrito_vacio ⟨[prodA], [⟨0, 1⟩], [], 1, 0⟩ 1 ⟨0, 1⟩
    (by decide) (by decide)

/-! ### C4: clearCart -/

/-- C4 counterexample: for a user with no Cart row, `vaciar_carrito` does
not create the cart and succeed — it fails with a 404 (`notFound`), so
clearCart is not total on users. -/
theorem vaciar_carrito_sin_carrito_contra :
    vaciar_carrito ⟨[prodA], [], [], 0, 0⟩ 1 =
      (⟨[prodA], [], [], 0, 0⟩, Outcome.notFound) := by decide

/-- C4 amended: when the user has no Cart row, `vaciar_carrito` fails
with `notFound` and changes nothing; when a cart exists it succeeds,
deletes all of the cart's items (the cart and product rows survive), and
a second call also succeeds on the now-empty cart. -/
theorem vaciar_carrito_spec (db : DB) (u : Nat) :
    (findCarrito db u = none → vaciar_carrito db u = (db, Outcome.notFound)) ∧
    ∀ c, findCarrito db u = some c →
      (vaciar_carrito db u).2 = Outcome.ok ∧
      itemsDe (vaciar_carrito db u).1 c.id = [] ∧
      (vaciar_carrito db u).1.carritos = db.carritos ∧
      (vaciar_carrito db u).1.productos = db.productos ∧
      vaciar_carrito (vaciar_carrito db u).1 u =
        ((vaciar_carrito db u).1, Outcome.ok) := by
  constructor
  · intro h
    simp [vaciar_carrito, h]
  · intro c hc
    have hrun : vaciar_carrito db u =
        ({ db with items := db.items.filter (fun i => i.carritoId != c.id) },
          Outcome.ok) := by
      simp [vaciar_carrito, hc]
    refine ⟨by rw [hrun], ?_, by rw [hrun], by rw [hrun], ?_⟩
    · rw [hrun]
      simp only [itemsDe, List.filter_filter]
      refine List.filter_eq_nil_iff.mpr ?_
      intro i _
      simp [bne]
    · rw [hrun]
      have hc2 : findCarrito
          { db with items := db.items.filter (fun i => i.carritoId != c.id) } u =
          some c := hc
      simp only [vaciar_carrito, hc2]
      rw [List.filter_filter]
      have : db.items.filter
          (fun a => (a.carritoId != c.id) && (a.carritoId != c.id)) =
          db.items.filter (fun i => i.carritoId != c.id) := by
        apply List.filter_congr
        intro x _
        simp [Bool.and_self]
      rw [this]

/-- Witness for the amended C4, at a database where user 1 owns cart 0
holding one item. -/
theorem vaciar_carrito_spec_witness :
    (vaciar_carrito ⟨[prodA], [⟨0, 1⟩], [⟨0, 0, 1, 2⟩], 1, 1⟩ 1).2 = Outcome.ok ∧
    itemsDe (vaciar_carrito ⟨[prodA], [⟨0, 1⟩], [⟨0, 0, 1, 2⟩], 1, 1⟩ 1).1 0 = [] := by
  have h := (vaciar_carrito_spec ⟨[prodA], [⟨0, 1⟩], [⟨0, 0, 1, 2⟩], 1, 1⟩ 1).2
    ⟨0, 1⟩ (by decide)
  exact ⟨h.1, h.2.1⟩

/-! ### C2: addItem stock validation -/

/-- C2 counterexample: with product 3 out of stock (`prodCero.stock = 0`)
and no CartItem present, the proposed quantity 1 exceeds the stock 0, yet
`agregar_al_carrito` succeeds and creates the item — the create branch of
the source performs no stock validation at all. -/
theorem agregar_al_carrito_sin_validar_contra :
    prodCero.stock = 0 ∧
    (agregar_al_carrito ⟨[prodCero], [⟨0, 1⟩], [], 1, 0⟩ 1 3).2 = Outcome.ok ∧
    (agregar_al_carrito ⟨[prodCero], [⟨0, 1⟩], [], 1, 0⟩ 1 3).1.items =
      [⟨0, 0, 3, 1⟩] := by decide

/-- C2 amended: `agregar_al_carrito` validates the proposed quantity
against stock only in the branch where a CartItem for (cart, product)
already exists — there, current + 1 must not exceed the stock, otherwise
it fails with InsufficientStock and the state is completely unchanged;
in the branch where no CartItem exists, a new item with quantity 1 is
created unconditionally, even when the stock is 0. -/
theorem agregar_al_carrito_spec (db : DB) (u pid : Nat) (p : Producto)
    (c : Carrito) (hp : findProducto db pid = some p)
    (hc : findCarrito db u = some c) :
    (∀ i, findItem db c.id p.id = some i → p.stock ≤ i.cantidad →
        agregar_al_carrito db u pid = (db, Outcome.insufficientStock p.stock)) ∧
    (∀ i, findItem db c.id p.id = some i → i.cantidad < p.stock →
        agregar_al_carrito db u pid =
          (guardarItem db { i with cantidad := i.cantidad + 1 }, Outcome.ok)) ∧
    (findItem db c.id p.id = none →
        agregar_al_carrito db u pid =
          ({ db with items := db.items ++ [⟨db.nextItemId, c.id, p.id, 1⟩],
                     nextItemId := db.nextItemId + 1 }, Outcome.ok)) := by
  refine ⟨?_, ?_, ?_⟩
  · intro i hi hle
    simp [agregar_al_carrito, getOrCreateCarrito, hp, hc, hi, not_lt.mpr hle]
  · intro i hi hlt
    simp [agregar_al_carrito, getOrCreateCarrito, hp, hc, hi, hlt]
  · intro hn
    simp [agregar_al_carrito, getOrCreateCarrito, hp, hc, hn]

/-- Witness for the amended C2: user 1's cart 0 already holds 2 of
product 1 with stock 5, so adding one more succeeds and updates the row;
the create branch is exercised for product 2. -/
theorem agregar_al_carrito_spec_witness :
    agregar_al_carrito ⟨[prodA], [⟨0, 1⟩], [⟨0, 0, 1, 2⟩], 1, 1⟩ 1 1 =
      (guardarItem ⟨[prodA], [⟨0, 1⟩], [⟨0, 0, 1, 2⟩], 1, 1⟩ ⟨0, 0, 1, 3⟩,
        Outcome.ok) :=
  (agregar_al_carrito_spec ⟨[prodA], [⟨0, 1⟩], [⟨0, 0, 1, 2⟩], 1, 1⟩ 1 1 prodA
    ⟨0, 1⟩ (by decide) (by decide)).2.1 ⟨0, 0, 1, 2⟩ (by decide) (by decide)

/-! ### C5: setItemQuantity -/

/-- C5: the manual-update branch of `actualizar_carrito`, on an item
owned by the calling user: a requested quantity `≤ 0` (zero and negative
alike) deletes the item and succeeds; a quantity above the product's
stock fails with InsufficientStock and leaves the whole state unchanged;
otherwise the item is updated to exactly the requested quantity. -/
theorem actualizar_carrito_update_spec (db : DB) (u itemId : Nat)
    (item : ItemCarrito) (producto : Producto) (n : Int)
    (hi : findItemDe db u itemId = some item)
    (hp : findProducto db item.productoId = some producto) :
    (n ≤ 0 → actualizar_carrito db u itemId (Accion.otra (some n)) =
        (borrarItem db item.id, Outcome.ok)) ∧
    (0 < n → producto.stock < n →
        actualizar_carrito db u itemId (Accion.otra (some n)) =
          (db, Outcome.insufficientStock producto.stock)) ∧
    (0 < n → n ≤ producto.stock →
        actualizar_carrito db u itemId (Accion.otra (some n)) =
          (guardarItem db { item with cantidad := n }, Outcome.ok)) ∧
    (∀ j ∈ (borrarItem db item.id).items, j.id ≠ item.id) := by
  refine ⟨?_, ?_, ?_, ?_⟩
  · intro hn
    simp [actualizar_carrito, hi, hp, hn]
  · intro hn hs
    simp [actualizar_carrito, hi, hp, not_le.mpr hn, hs]
  · intro hn hs
    simp [actualizar_carrito, hi, hp, not_le.mpr hn, not_lt.mpr hs]
  · intro j hj
    have := (List.mem_filter.mp hj).2
    simpa [bne] using this

/-- Witness for C5: deleting via quantity 0, at a database where user 1's
cart 0 holds item 0 (2 units of product 1). -/
theorem actualizar_carrito_update_spec_witness :
    actualizar_carrito ⟨[prodA], [⟨0, 1⟩], [⟨0, 0, 1, 2⟩], 1, 1⟩ 1 0
        (Accion.otra (some 0)) =
      (borrarItem ⟨[prodA], [⟨0, 1⟩], [⟨0, 0, 1, 2⟩], 1, 1⟩ 0, Outcome.ok) :=
  (actualizar_carrito_update_spec ⟨[prodA], [⟨0, 1⟩], [⟨0, 0, 1, 2⟩], 1, 1⟩ 1 0
    ⟨0, 0, 1, 2⟩ prodA 0 (by decide) (by decide)).1 (by decide)

/-! ### C1: checkout all-or-nothing on insufficient stock -/

/-- If every item's product row exists and some item's quantity exceeds
its product's stock, the validation loop reports InsufficientStock. -/
theorem verificarStock_insuficiente (db : DB) :
    ∀ l : List ItemCarrito,
      (∀ i ∈ l, ∃ p ∈ db.productos, findProducto db i.productoId = some p) →
      (∃ i ∈ l, ∃ p ∈ db.productos,
        findProducto db i.productoId = some p ∧ p.stock < i.cantidad) →
      ∃ a, verificarStock db l = some (Outcome.insufficientStock a) := by
  intro l
  induction l with
  | nil =>
    rintro _ ⟨i, hi, _⟩
    exact absurd hi (List.not_mem_nil i)
  | cons j rest ih =>
    rintro hfk ⟨i, hi, p, -, hp, hlt⟩
    obtain ⟨pj, -, hpj⟩ := hfk j (List.mem_cons_self j rest)
    by_cases hj : pj.stock < j.cantidad
    · exact ⟨pj.stock, by simp [verificarStock, hpj, hj]⟩
    · have hirest : i ∈ rest := by
        rcases List.mem_cons.mp hi with hij | hir
        · subst hij
          rw [hp] at hpj
          cases hpj
          exact absurd hlt hj
        · exact hir
      obtain ⟨a, ha⟩ := ih (fun i hi => hfk i (List.mem_cons_of_mem j hi))
        ⟨i, hirest, p, List.mem_of_find?_eq_some hp, hp, hlt⟩
      exact ⟨a, by simp [verificarStock, hpj, hj, ha]⟩

/-- C1: checkout is all-or-nothing.  For a cart in which some item's
quantity exceeds its product's current stock (and every item's product
row exists, as the foreign key guarantees), `procesar_pago` fails with
InsufficientStock and returns the database completely unchanged: no
stock is decremented and every cart item survives with its quantity —
all validation happens before any mutation. -/
theorem procesar_pago_todo_o_nada (db : DB) (u : Nat) (c : Carrito)
    (hc : findCarrito db u = some c)
    (hfk : ∀ i ∈ itemsDe db c.id, ∃ p ∈ db.productos,
        findProducto db i.productoId = some p)
    (hbad : ∃ i ∈ itemsDe db c.id, ∃ p ∈ db.productos,
        findProducto db i.productoId = some p ∧ p.stock < i.cantidad) :
    ∃ a, procesar_pago db u = (db, Outcome.insufficientStock a) := by
  obtain ⟨a, ha⟩ := verificarStock_insuficiente db (itemsDe db c.id) hfk hbad
  refine ⟨a, ?_⟩
  obtain ⟨i, hi, -⟩ := hbad
  have hne : (itemsDe db c.id).isEmpty = false := by
    rcases h : itemsDe db c.id with - | ⟨x, xs⟩
    · rw [h] at hi
      exact absurd hi (List.not_mem_nil i)
    · rfl
  simp [procesar_pago, hc, hne, ha]

/-- Witness for C1, the spec's own example: cart with item A (qty 3,
stock 5) and item B (qty 10, stock 2); checkout fails with
InsufficientStock and the database (both stocks, both items) is
unchanged. -/
theorem procesar_pago_todo_o_nada_witness :
    ∃ a, procesar_pago
        ⟨[prodA, prodB], [⟨0, 1⟩], [⟨0, 0, 1, 3⟩, ⟨1, 0, 2, 10⟩], 1, 2⟩ 1 =
      (⟨[prodA, prodB], [⟨0, 1⟩], [⟨0, 0, 1, 3⟩, ⟨1, 0, 2, 10⟩], 1, 2⟩,
        Outcome.insufficientStock a) :=
  procesar_pago_todo_o_nada
    ⟨[prodA, prodB], [⟨0, 1⟩], [⟨0, 0, 1, 3⟩, ⟨1, 0, 2, 10⟩], 1, 2⟩ 1 ⟨0, 1⟩
    (by decide) (by decide) (by decide)

/-! ### C3: successful checkout -/

/-- A product write-back leaves the lookup of a different id unchanged. -/
theorem find?_actualiza_otro (l : List Producto) (p' : Producto) (pid : Nat)
    (h : pid ≠ p'.id) :
    (l.map (fun q => if q.id == p'.id then p' else q)).find?
        (fun q => q.id == pid) =
      l.find? (fun q => q.id == pid) := by
  induction l with
  | nil => rfl
  | cons q t ih =>
    simp only [List.map_cons]
    by_cases hq : q.id = p'.id
    · rw [if_pos (by simp [hq])]
      rw [List.find?_cons_of_neg _ (by simp [Ne.symm h]),
        List.find?_cons_of_neg _ (by simp [hq, Ne.symm h])]
      exact ih
    · rw [if_neg (by simp [hq])]
      by_cases hqp : q.id = pid
      · rw [List.find?_cons_of_pos _ (by simp [hqp]),
          List.find?_cons_of_pos _ (by simp [hqp])]
      · rw [List.find?_cons_of_neg _ (by simp [hqp]),
          List.find?_cons_of_neg _ (by simp [hqp])]
        exact ih

/-- A product write-back with the same id replaces the looked-up row. -/
theorem find?_actualiza_mismo (p p' : Producto) (pid : Nat)
    (hid : p'.id = p.id) :
    ∀ l : List Producto, l.find? (fun q => q.id == pid) = some p →
      (l.map (fun q => if q.id == p'.id then p' else q)).find?
          (fun q => q.id == pid) = some p' := by
  intro l
  induction l with
  | nil => intro h; simp at h
  | cons q t ih =>
    intro hfind
    have hpid : p.id = pid := by
      simpa using List.find?_some hfind
    simp only [List.map_cons]
    by_cases hq : q.id = pid
    · have hqp : q = p := by
        rw [List.find?_cons_of_pos _ (by simp [hq])] at hfind
        exact Option.some.inj hfind
      rw [if_pos (by simp [hqp, hid, hpid])]
      exact List.find?_cons_of_pos _ (by simp [hid, hpid])
    · rw [List.find?_cons_of_neg _ (by simp [hq])] at hfind
      rw [if_neg (by simp [hid, hpid, hq])]
      rw [List.find?_cons_of_neg _ (by simp [hq])]
      exact ih hfind

/-- The stock-update loop only touches the product table. -/
theorem descontar_shape : ∀ (l : List ItemCarrito) (db : DB),
    (descontarStock db l).items = db.items ∧
    (descontarStock db l).carritos = db.carritos ∧
    (descontarStock db l).nextItemId = db.nextItemId ∧
    (descontarStock db l).nextCarritoId = db.nextCarritoId := by
  intro l
  induction l with
  | nil => intro db; exact ⟨rfl, rfl, rfl, rfl⟩
  | cons j rest ih =>
    intro db
    simp only [descontarStock]
    cases h : findProducto db j.productoId with
    | none => exact ih db
    | some p => exact ih _

/-- Products not referenced by the remaining items keep their row. -/
theorem descontar_no_toca : ∀ (l : List ItemCarrito) (db : DB) (pid : Nat),
    pid ∉ l.map (fun i => i.productoId) →
    findProducto (descontarStock db l) pid = findProducto db pid := by
  intro l
  induction l with
  | nil => intro db pid _; rfl
  | cons j rest ih =>
    intro db pid hpid
    obtain ⟨h1, h2⟩ : pid ≠ j.productoId ∧ pid ∉ rest.map (fun i => i.productoId) := by
      simpa [not_or] using hpid
    simp only [descontarStock]
    cases h : findProducto db j.productoId with
    | none => exact ih db pid h2
    | some p =>
      rw [ih _ pid h2]
      have hpj : p.id = j.productoId := by
        simpa using List.find?_some h
      exact find?_actualiza_otro db.productos _ pid (by simpa [hpj] using h1)

/-- Sequential stock write-backs over items with pairwise distinct
product ids decrement each referenced product by exactly its item's
quantity. -/
theorem descontar_decrementa : ∀ (l : List ItemCarrito) (db : DB),
    (l.map (fun i => i.productoId)).Nodup →
    ∀ i ∈ l, ∀ p, findProducto db i.productoId = some p →
      findProducto (descontarStock db l) i.productoId =
        some { p with stock := p.stock - i.cantidad } := by
  intro l
  induction l with
  | nil => intro db _ i hi; exact absurd hi (List.not_mem_nil i)
  | cons j rest ih =>
    intro db hnd i hi p hp
    obtain ⟨hj_notin, hnd_rest⟩ :
        j.productoId ∉ rest.map (fun i => i.productoId) ∧
          (rest.map (fun i => i.productoId)).Nodup := by
      simpa [List.nodup_cons] using hnd
    simp only [descontarStock]
    rcases List.mem_cons.mp hi with rfl | hir
    · rw [hp]
      rw [descontar_no_toca rest _ _ hj_notin]
      exact find?_actualiza_mismo p { p with stock := p.stock - i.cantidad }
        i.productoId rfl db.productos hp
    · have hij : i.productoId ≠ j.productoId := fun h =>
        hj_notin (h ▸ List.mem_map_of_mem (fun i => i.productoId) hir)
      cases hpj : findProducto db j.productoId with
      | none => exact ih db hnd_rest i hir p hp
      | some pj =>
        apply ih _ hnd_rest i hir p
        have hpjid : pj.id = j.productoId := by
          simpa using List.find?_some hpj
        have heq : findProducto
            (guardarProducto db { pj with stock := pj.stock - j.cantidad })
            i.productoId = findProducto db i.productoId :=
          find?_actualiza_otro db.productos _ i.productoId
            (by simpa [hpjid] using hij)
        rw [heq]
        exact hp

/-- When every item's quantity fits its product's stock, the validation
loop passes. -/
theorem verificarStock_pasa (db : DB) :
    ∀ l : List ItemCarrito,
      (∀ i ∈ l, ∃ p ∈ db.productos,
        findProducto db i.productoId = some p ∧ i.cantidad ≤ p.stock) →
      verificarStock db l = none := by
  intro l
  induction l with
  | nil => intro _; rfl
  | cons j rest ih =>
    intro h
    obtain ⟨p, -, hp, hle⟩ := h j (List.mem_cons_self j rest)
    simp [verificarStock, hp, not_lt.mpr hle,
      ih (fun i hi => h i (List.mem_cons_of_mem j hi))]

/-- C3: successful checkout.  For a non-empty cart in which every item's
quantity is at most its product's stock (products referenced at most
once, as the schema guarantees), `procesar_pago` succeeds, each
referenced product's stock is decremented by exactly that item's
quantity, the cart holds zero items afterwards, and the Cart row itself
survives. -/
theorem procesar_pago_exitoso (db : DB) (u : Nat) (c : Carrito)
    (hc : findCarrito db u = some c)
    (hne : itemsDe db c.id ≠ [])
    (hok : ∀ i ∈ itemsDe db c.id, ∃ p ∈ db.productos,
        findProducto db i.productoId = some p ∧ i.cantidad ≤ p.stock)
    (hnd : ((itemsDe db c.id).map (fun i => i.productoId)).Nodup) :
    (procesar_pago db u).2 = Outcome.ok ∧
    (∀ i ∈ itemsDe db c.id, ∀ p, findProducto db i.productoId = some p →
        findProducto (procesar_pago db u).1 i.productoId =
          some { p with stock := p.stock - i.cantidad }) ∧
    itemsDe (procesar_pago db u).1 c.id = [] ∧
    (procesar_pago db u).1.carritos = db.carritos := by
  have hempty : (itemsDe db c.id).isEmpty = false := by
    cases h : itemsDe db c.id
    · exact absurd h hne
    · rfl
  have hver := verificarStock_pasa db (itemsDe db c.id) hok
  have hrun : procesar_pago db u =
      ({ descontarStock db (itemsDe db c.id) with
          items := (descontarStock db (itemsDe db c.id)).items.filter
            (fun i => i.carritoId != c.id) }, Outcome.ok) := by
    simp [procesar_pago, hc, hempty, hver]
  refine ⟨by rw [hrun], ?_, ?_, ?_⟩
  · intro i hi p hp
    rw [hrun]
    exact descontar_decrementa (itemsDe db c.id) db hnd i hi p hp
  · rw [hrun]
    simp only [itemsDe]
    rw [List.filter_filter]
    refine List.filter_eq_nil_iff.mpr ?_
    intro i _
    simp [bne]
  · rw [hrun]
    exact (descontar_shape (itemsDe db c.id) db).2.1

/-- Witness for C3, the spec's own example: a cart with one item of
product A (qty 2, stock 5); checkout succeeds, A's stock becomes 3 and
the cart is left empty. -/
theorem procesar_pago_exitoso_witness :
    (procesar_pago ⟨[prodA], [⟨0, 1⟩], [⟨0, 0, 1, 2⟩], 1, 1⟩ 1).2 = Outcome.ok ∧
    findProducto (procesar_pago ⟨[prodA], [⟨0, 1⟩], [⟨0, 0, 1, 2⟩], 1, 1⟩ 1).1 1 =
      some { prodA with stock := prodA.stock - 2 } ∧
    itemsDe (procesar_pago ⟨[prodA], [⟨0, 1⟩], [⟨0, 0, 1, 2⟩], 1, 1⟩ 1).1 0 = [] := by
  have h := procesar_pago_exitoso ⟨[prodA], [⟨0, 1⟩], [⟨0, 0, 1, 2⟩], 1, 1⟩ 1
    ⟨0, 1⟩ (by decide) (by decide) (by decide) (by decide)
  exact ⟨h.1, h.2.1 ⟨0, 0, 1, 2⟩ (by decide) prodA (by decide), h.2.2.1⟩

/-! ### Reachable-state invariants (C6, C7, C8) -/

/-- Membership after an item write-back. -/
theorem mem_actualiza {l : List ItemCarrito} {i j : ItemCarrito}
    (h : j ∈ l.map (fun j0 => if j0.id == i.id then i else j0)) :
    j = i ∨ j ∈ l := by
  obtain ⟨j0, hj0, hji⟩ := List.mem_map.mp h
  by_cases hc : (j0.id == i.id) = true
  · left
    rw [if_pos hc] at hji
    exact hji.symm
  · right
    rw [if_neg hc] at hji
    exact hji ▸ hj0

/-- An item write-back keeps the list of item ids. -/
theorem actualiza_ids (l : List ItemCarrito) (i : ItemCarrito) :
    (l.map (fun j => if j.id == i.id then i else j)).map (fun j => j.id) =
      l.map (fun j => j.id) := by
  induction l with
  | nil => rfl
  | cons q t ih =>
    simp only [List.map_cons, ih]
    by_cases hq : (q.id == i.id) = true
    · rw [if_pos hq]
      have hqe : q.id = i.id := by simpa using hq
      rw [hqe]
    · rw [if_neg hq]

/-- An item write-back keeps the list of (cart, product) keys when the
written row has the key of every row sharing its id. -/
theorem actualiza_claves (l : List ItemCarrito) (i : ItemCarrito)
    (h : ∀ j ∈ l, j.id = i.id → clave j = clave i) :
    (l.map (fun j => if j.id == i.id then i else j)).map clave = l.map clave := by
  induction l with
  | nil => rfl
  | cons q t ih =>
    simp only [List.map_cons]
    rw [ih (fun j hj => h j (List.mem_cons_of_mem q hj))]
    by_cases hq : (q.id == i.id) = true
    · rw [if_pos hq, h q (List.mem_cons_self q t) (by simpa using hq)]
    · rw [if_neg hq]

/-- Membership after a product write-back. -/
theorem mem_guardarProducto {db : DB} {p r : Producto}
    (h : r ∈ (guardarProducto db p).productos) : r = p ∨ r ∈ db.productos := by
  obtain ⟨q, hq, hqr⟩ := List.mem_map.mp h
  by_cases hc : (q.id == p.id) = true
  · left
    rw [if_pos hc] at hqr
    exact hqr.symm
  · right
    rw [if_neg hc] at hqr
    exact hqr ▸ hq

/-- The state invariant maintained by every cart view: stocks are
non-negative, every cart item has quantity at least 1, each user owns at
most one cart, item ids are below the id sequence and unique, and each
(cart, product) pair occurs in at most one item row. -/
structure Invariante (db : DB) : Prop where
  stockPos : ∀ p ∈ db.productos, 0 ≤ p.stock
  cantPos : ∀ i ∈ db.items, 1 ≤ i.cantidad
  unicoUsuario : (db.carritos.map (fun c => c.usuarioId)).Nodup
  itemFresco : ∀ i ∈ db.items, i.id < db.nextItemId
  idsNodup : (db.items.map (fun i => i.id)).Nodup
  clavesNodup : (db.items.map clave).Nodup

/-- `item.save()` of a quantity change preserves the invariant. -/
theorem inv_guardarItem (db : DB) (item : ItemCarrito) (x : Int)
    (hmem : item ∈ db.items) (h : Invariante db) (hx : 1 ≤ x) :
    Invariante (guardarItem db { item with cantidad := x }) := by
  refine ⟨h.stockPos, ?_, h.unicoUsuario, ?_, ?_, ?_⟩
  · intro j hj
    rcases mem_actualiza hj with rfl | hjl
    · exact hx
    · exact h.cantPos j hjl
  · intro j hj
    rcases mem_actualiza hj with rfl | hjl
    · exact h.itemFresco item hmem
    · exact h.itemFresco j hjl
  · have := actualiza_ids db.items { item with cantidad := x }
    exact this ▸ h.idsNodup
  · have hk : ∀ j ∈ db.items, j.id = ({ item with cantidad := x} : ItemCarrito).id →
        clave j = clave { item with cantidad := x } := by
      intro j hj hid
      have : j = item :=
        List.inj_on_of_nodup_map h.idsNodup hj hmem (by simpa using hid)
      rw [this]
      rfl
    have := actualiza_claves db.items { item with cantidad := x } hk
    exact this ▸ h.clavesNodup

/-- Deleting item rows (by any filter) preserves the invariant. -/
theorem inv_filterItems (db : DB) (f : ItemCarrito → Bool) (h : Invariante db) :
    Invariante { db with items := db.items.filter f } := by
  refine ⟨h.stockPos, ?_, h.unicoUsuario, ?_, ?_, ?_⟩
  · intro i hi
    exact h.cantPos i (List.mem_of_mem_filter hi)
  · intro i hi
    exact h.itemFresco i (List.mem_of_mem_filter hi)
  · exact h.idsNodup.sublist ((List.filter_sublist db.items).map _)
  · exact h.clavesNodup.sublist ((List.filter_sublist db.items).map _)

/-- Creating a cart for a user who has none preserves the invariant. -/
theorem inv_nuevoCarrito (db : DB) (u : Nat) (h : Invariante db)
    (hn : findCarrito db u = none) :
    Invariante { db with carritos := db.carritos ++ [⟨db.nextCarritoId, u⟩],
                         nextCarritoId := db.nextCarritoId + 1 } := by
  have hu : ∀ c ∈ db.carritos, c.usuarioId ≠ u := by
    intro c hc
    have := List.find?_eq_none.mp hn c hc
    simpa using this
  refine ⟨h.stockPos, h.cantPos, ?_, h.itemFresco, h.idsNodup, h.clavesNodup⟩
  simp only [List.map_append, List.map_cons, List.map_nil]
  rw [List.nodup_append]
  refine ⟨h.unicoUsuario, List.nodup_singleton u, ?_⟩
  intro a ha hb
  obtain ⟨c, hc, rfl⟩ := List.mem_map.mp ha
  exact hu c hc (by simpa using hb)

/-- Inserting an item for a (cart, product) pair that has none preserves
the invariant. -/
theorem inv_nuevoItem (db : DB) (cid pid : Nat) (h : Invariante db)
    (hn : findItem db cid pid = none) :
    Invariante { db with items := db.items ++ [⟨db.nextItemId, cid, pid, 1⟩],
                         nextItemId := db.nextItemId + 1 } := by
  have hnk : ∀ i ∈ db.items, ¬(i.carritoId = cid ∧ i.productoId = pid) := by
    intro i hi
    have := List.find?_eq_none.mp hn i hi
    simpa using this
  refine ⟨h.stockPos, ?_, h.unicoUsuario, ?_, ?_, ?_⟩
  · intro i hi
    rcases List.mem_append.mp hi with hl | hr
    · exact h.cantPos i hl
    · have : i = ⟨db.nextItemId, cid, pid, 1⟩ := by simpa using hr
      rw [this]
  · intro i hi
    rcases List.mem_append.mp hi with hl | hr
    · exact Nat.lt_succ_of_lt (h.itemFresco i hl)
    · have : i = ⟨db.nextItemId, cid, pid, 1⟩ := by simpa using hr
      rw [this]
      exact Nat.lt_succ_self _
  · simp only [List.map_append, List.map_cons, List.map_nil]
    rw [List.nodup_append]
    refine ⟨h.idsNodup, List.nodup_singleton _, ?_⟩
    intro a ha hb
    obtain ⟨i, hi, rfl⟩ := List.mem_map.mp ha
    have : i.id = db.nextItemId := by simpa using hb
    exact absurd this (Nat.ne_of_lt (h.itemFresco i hi))
  · simp only [List.map_append, List.map_cons, List.map_nil]
    rw [List.nodup_append]
    refine ⟨h.clavesNodup, List.nodup_singleton _, ?_⟩
    intro a ha hb
    obtain ⟨i, hi, rfl⟩ := List.mem_map.mp ha
    have : clave i = (cid, pid) := by simpa [clave] using hb
    exact hnk i hi (by simpa [clave, Prod.ext_iff] using this)

/-- Uniqueness of (cart, product) keys gives uniqueness of product ids
within one cart's items. -/
theorem claves_a_pids : ∀ (l : List ItemCarrito) (cid : Nat),
    (l.map clave).Nodup →
    ((l.filter (fun i => i.carritoId == cid)).map
      (fun i => i.productoId)).Nodup := by
  intro l
  induction l with
  | nil => intro cid _; simp
  | cons j t ih =>
    intro cid hnd
    obtain ⟨hjn, hnd_t⟩ : clave j ∉ t.map clave ∧ (t.map clave).Nodup := by
      simpa [List.nodup_cons] using hnd
    by_cases hj : (j.carritoId == cid) = true
    · rw [List.filter_cons, if_pos hj]
      simp only [List.map_cons]
      rw [List.nodup_cons]
      refine ⟨?_, ih cid hnd_t⟩
      intro hmem
      obtain ⟨i, hi, hpi⟩ := List.mem_map.mp hmem
      have h1 : i.carritoId = cid := by
        simpa using (List.mem_filter.mp hi).2
      have h2 : j.carritoId = cid := by simpa using hj
      have hcl : clave i = clave j := by simp [clave, h1, h2, hpi]
      exact hjn (hcl ▸ List.mem_map_of_mem clave (List.mem_of_mem_filter hi))
    · rw [List.filter_cons, if_neg hj]
      exact ih cid hnd_t

/-- A passing validation loop bounds every item's quantity by its
product's stock. -/
theorem verificarStock_none_le (db : DB) :
    ∀ l : List ItemCarrito, verificarStock db l = none →
      ∀ i ∈ l, ∀ p, findProducto db i.productoId = some p →
        i.cantidad ≤ p.stock := by
  intro l
  induction l with
  | nil => intro _ i hi; exact absurd hi (List.not_mem_nil i)
  | cons j t ih =>
    intro hv i hi p hp
    rcases hj : findProducto db j.productoId with - | pj
    · rw [show verificarStock db (j :: t) = some Outcome.notFound from by
        simp [verificarStock, hj]] at hv
      exact absurd hv (by simp)
    · by_cases hlt : pj.stock < j.cantidad
      · rw [show verificarStock db (j :: t) =
            some (Outcome.insufficientStock pj.stock) from by
          simp [verificarStock, hj, hlt]] at hv
        exact absurd hv (by simp)
      · have hv' : verificarStock db t = none := by
          simpa [verificarStock, hj, hlt] using hv
        rcases List.mem_cons.mp hi with rfl | hit
        · obtain rfl := Option.some.inj (hj.symm.trans hp)
          exact not_lt.mp hlt
        · exact ih hv' i hit p hp

/-- After a validated checkout's stock updates, all stocks stay
non-negative. -/
theorem descontar_stock_nonneg : ∀ (l : List ItemCarrito) (db : DB),
    (l.map (fun i => i.productoId)).Nodup →
    (∀ r ∈ db.productos, 0 ≤ r.stock) →
    (∀ i ∈ l, ∀ p, findProducto db i.productoId = some p →
      i.cantidad ≤ p.stock) →
    ∀ r ∈ (descontarStock db l).productos, 0 ≤ r.stock := by
  intro l
  induction l with
  | nil => intro db _ h _; exact h
  | cons j t ih =>
    intro db hnd h hbound
    obtain ⟨hjn, hnd_t⟩ :
        j.productoId ∉ t.map (fun i => i.productoId) ∧
          (t.map (fun i => i.productoId)).Nodup := by
      simpa [List.nodup_cons] using hnd
    simp only [descontarStock]
    cases hj : findProducto db j.productoId with
    | none =>
      exact ih db hnd_t h (fun i hi => hbound i (List.mem_cons_of_mem j hi))
    | some p =>
      have hple : j.cantidad ≤ p.stock := hbound j (List.mem_cons_self j t) p hj
      have hpid : p.id = j.productoId := by simpa using List.find?_some hj
      refine ih _ hnd_t ?_ ?_
      · intro r hr
        rcases mem_guardarProducto hr with rfl | hrl
        · show (0:Int) ≤ p.stock - j.cantidad
          omega
        · exact h r hrl
      · intro i hi p' hp'
        have hne : i.productoId ≠ j.productoId := fun he =>
          hjn (he ▸ List.mem_map_of_mem (fun i => i.productoId) hi)
        have heq : findProducto
            (guardarProducto db { p with stock := p.stock - j.cantidad })
            i.productoId = findProducto db i.productoId :=
          find?_actualiza_otro db.productos _ i.productoId
            (by simpa [hpid] using hne)
        rw [heq] at hp'
        exact hbound i (List.mem_cons_of_mem j hi) p' hp'


/-- `get_or_create` of the user's cart preserves the invariant. -/
theorem inv_getOrCreate (db : DB) (u : Nat) (h : Invariante db) :
    Invariante (getOrCreateCarrito db u).1 := by
  unfold getOrCreateCarrito
  rcases hcu : findCarrito db u with - | c
  · exact inv_nuevoCarrito db u h hcu
  · exact h

/-- Every cart view preserves the state invariant. -/
theorem inv_paso (db : DB) (op : Op) (h : Invariante db) :
    Invariante (paso db op) := by
  cases op with
  | agregar u pid =>
    show Invariante (agregar_al_carrito db u pid).1
    rcases hp : findProducto db pid with - | producto
    · simpa [agregar_al_carrito, hp] using h
    · have hgoc := inv_getOrCreate db u h
      simp only [agregar_al_carrito, hp]
      rcases hgo : getOrCreateCarrito db u with ⟨db1, c⟩
      rw [hgo] at hgoc
      simp only
      rcases hi : findItem db1 c.id producto.id with - | item
      · exact inv_nuevoItem db1 c.id producto.id hgoc hi
      · have hmem : item ∈ db1.items := List.mem_of_find?_eq_some hi
        dsimp only
        by_cases hlt : item.cantidad < producto.stock
        · rw [if_pos hlt]
          exact inv_guardarItem db1 item (item.cantidad + 1) hmem hgoc
            (by have := hgoc.cantPos item hmem; omega)
        · rw [if_neg hlt]
          exact hgoc
  | actualizar u iid a =>
    show Invariante (actualizar_carrito db u iid a).1
    rcases hi : findItemDe db u iid with - | item
    · simpa [actualizar_carrito, hi] using h
    · rcases hp : findProducto db item.productoId with - | producto
      · simpa [actualizar_carrito, hi, hp] using h
      · have hmem : item ∈ db.items := List.mem_of_find?_eq_some hi
        simp only [actualizar_carrito, hi, hp]
        cases a with
        | increase =>
          dsimp only
          by_cases hlt : item.cantidad < producto.stock
          · rw [if_pos hlt]
            exact inv_guardarItem db item (item.cantidad + 1) hmem h
              (by have := h.cantPos item hmem; omega)
          · rw [if_neg hlt]
            exact h
        | decrease =>
          dsimp only
          by_cases hgt : 1 < item.cantidad
          · rw [if_pos hgt]
            exact inv_guardarItem db item (item.cantidad - 1) hmem h (by omega)
          · rw [if_neg hgt]
            exact inv_filterItems db _ h
        | otra oc =>
          cases oc with
          | none => exact h
          | some n =>
            dsimp only
            by_cases hn : n ≤ 0
            · rw [if_pos hn]
              exact inv_filterItems db _ h
            · rw [if_neg hn]
              by_cases hs : producto.stock < n
              · rw [if_pos hs]
                exact h
              · rw [if_neg hs]
                exact inv_guardarItem db item n hmem h (by omega)
  | eliminar u iid =>
    show Invariante (eliminar_del_carrito db u iid).1
    rcases hi : findItemDe db u iid with - | item
    · simpa [eliminar_del_carrito, hi] using h
    · simp only [eliminar_del_carrito, hi]
      exact inv_filterItems db _ h
  | vaciar u =>
    show Invariante (vaciar_carrito db u).1
    rcases hc : findCarrito db u with - | c
    · simpa [vaciar_carrito, hc] using h
    · simp only [vaciar_carrito, hc]
      exact inv_filterItems db _ h
  | procesar u =>
    show Invariante (procesar_pago db u).1
    rcases hc : findCarrito db u with - | c
    · simpa [procesar_pago, hc] using h
    · simp only [procesar_pago, hc]
      by_cases hemp : (itemsDe db c.id).isEmpty = true
      · rw [if_pos hemp]
        exact h
      · rw [if_neg hemp]
        rcases hv : verificarStock db (itemsDe db c.id) with - | out
        · have hbound := verificarStock_none_le db (itemsDe db c.id) hv
          have hnd := claves_a_pids db.items c.id h.clavesNodup
          have hd : Invariante (descontarStock db (itemsDe db c.id)) := by
            obtain ⟨hit, hca, hni, -⟩ := descontar_shape (itemsDe db c.id) db
            refine ⟨descontar_stock_nonneg _ db hnd h.stockPos hbound,
              ?_, ?_, ?_, ?_, ?_⟩
            · intro i hi
              rw [hit] at hi
              exact h.cantPos i hi
            · rw [hca]
              exact h.unicoUsuario
            · intro i hi
              rw [hit] at hi
              rw [hni]
              exact h.itemFresco i hi
            · rw [hit]
              exact h.idsNodup
            · rw [hit]
              exact h.clavesNodup
          exact inv_filterItems _ _ hd
        · exact h

/-- The invariant is preserved along any request sequence. -/
theorem inv_ejecutar : ∀ (ops : List Op) (db : DB),
    Invariante db → Invariante (ejecutar db ops) := by
  intro ops
  induction ops with
  | nil => intro db h; exact h
  | cons op rest ih =>
    intro db h
    exact ih _ (inv_paso db op h)

/-- A fresh database, whose product stocks are non-negative, satisfies
the invariant. -/
theorem inv_inicial (prods : List Producto)
    (h : ∀ p ∈ prods, 0 ≤ p.stock) : Invariante (inicial prods) := by
  refine ⟨h, ?_, ?_, ?_, ?_, ?_⟩ <;> simp [inicial]

/-- C6: no oversell.  Starting from a catalog whose stock counts are all
non-negative (with no carts yet), after any sequence of cart requests —
in particular after every checkout, the only operation that decrements
stock and which does so only after validating every item's quantity
against current stock — every product's stock count is still ≥ 0. -/
theorem no_oversell (prods : List Producto)
    (h : ∀ p ∈ prods, 0 ≤ p.stock) (ops : List Op) :
    ∀ p ∈ (ejecutar (inicial prods) ops).productos, 0 ≤ p.stock :=
  (inv_ejecutar ops (inicial prods) (inv_inicial prods h)).stockPos

/-- Witness for C6: add product 1 twice and check out; its stock drops
from 5 to 3 and stays non-negative. -/
theorem no_oversell_witness :
    (0:Int) ≤ ({ prodA with stock := 3 } : Producto).stock :=
  no_oversell [prodA] (by decide)
    [Op.agregar 1 1, Op.agregar 1 1, Op.procesar 1]
    { prodA with stock := 3 } (by decide)

/-- C7: quantity positivity.  Starting from a catalog with non-negative
stocks and no cart rows, after any sequence of cart requests every
existing CartItem has quantity ≥ 1: a quantity can never be stored as 0
or below — the branches that would reach 0 delete the row instead. -/
theorem cantidad_positiva (prods : List Producto)
    (h : ∀ p ∈ prods, 0 ≤ p.stock) (ops : List Op) :
    ∀ i ∈ (ejecutar (inicial prods) ops).items, 1 ≤ i.cantidad :=
  (inv_ejecutar ops (inicial prods) (inv_inicial prods h)).cantPos

/-- Witness for C7: after one add, the created item holds quantity 1. -/
theorem cantidad_positiva_witness :
    (1:Int) ≤ (⟨0, 0, 1, 1⟩ : ItemCarrito).cantidad :=
  cantidad_positiva [prodA] (by decide) [Op.agregar 1 1]
    ⟨0, 0, 1, 1⟩ (by decide)

/-- C8: uniqueness.  In every state reachable by the cart requests from
a fresh database, each user owns at most one Cart row (user ids of cart
rows are pairwise distinct) and each (cart, product) pair has at most
one CartItem row — adding an already-present product updates the
existing row instead of inserting a second one. -/
theorem unicidad (prods : List Producto)
    (h : ∀ p ∈ prods, 0 ≤ p.stock) (ops : List Op) :
    ((ejecutar (inicial prods) ops).carritos.map
      (fun c => c.usuarioId)).Nodup ∧
    ((ejecutar (inicial prods) ops).items.map clave).Nodup :=
  ⟨(inv_ejecutar ops (inicial prods) (inv_inicial prods h)).unicoUsuario,
   (inv_ejecutar ops (inicial prods) (inv_inicial prods h)).clavesNodup⟩

/-- Witness for C8: two adds of the same product by the same user leave
one cart row and one item row. -/
theorem unicidad_witness :
    ((ejecutar (inicial [prodA]) [Op.agregar 1 1, Op.agregar 1 1]).carritos.map
      (fun c => c.usuarioId)).Nodup ∧
    ((ejecutar (inicial [prodA]) [Op.agregar 1 1, Op.agregar 1 1]).items.map
      clave).Nodup :=
  unicidad [prodA] (by decide) [Op.agregar 1 1, Op.agregar 1 1]

/-! ### C10: the public catalog lists only in-stock products -/

/-- Anything on any page of the catalog comes from the `stock__gt=0`
filter. -/
theorem mem_catalogo_stock (db : DB) (categoriaId : Option Nat)
    (q : Option String) (page : Option Int) (p : Producto)
    (hp : p ∈ catalogo db categoriaId q page) : 0 < p.stock := by
  simp only [catalogo, pagina] at hp
  have h2 := List.drop_subset _ _ (List.take_subset _ _ hp)
  have h3 : p ∈ (db.productos.filter (fun r => 0 < r.stock)).insertionSort
      (fun a b => b.creado ≤ a.creado) := by
    rcases categoriaId with - | cid <;> rcases q with - | s
    · exact h2
    · exact List.mem_of_mem_filter h2
    · exact List.mem_of_mem_filter h2
    · exact List.mem_of_mem_filter (List.mem_of_mem_filter h2)
  have h4 := (List.mem_insertionSort _).mp h3
  have h5 := (List.mem_filter.mp h4).2
  simpa using h5

/-- C10: the public catalog only shows in-stock products.  Every product
on any page of `catalogo` (under any category filter, text query and
page number) has stock ≥ 1; a product with stock 0 is filtered out of
the listing, while it remains reachable through the product-detail
lookup (which applies no stock filter). -/
theorem catalogo_solo_en_stock (db : DB) (categoriaId : Option Nat)
    (q : Option String) (page : Option Int) :
    (∀ p ∈ catalogo db categoriaId q page, 1 ≤ p.stock) ∧
    (∀ p ∈ db.productos, p.stock ≤ 0 → p ∉ catalogo db categoriaId q page) ∧
    (∀ p ∈ db.productos, producto_detalle db p.id ≠ none) := by
  refine ⟨?_, ?_, ?_⟩
  · intro p hp
    have := mem_catalogo_stock db categoriaId q page p hp
    omega
  · intro p _ hle hp
    have := mem_catalogo_stock db categoriaId q page p hp
    omega
  · intro p hmem
    have h1 : (db.productos.find? (fun r => r.id == p.id)).isSome :=
      List.find?_isSome.mpr ⟨p, hmem, by simp⟩
    exact Option.isSome_iff_ne_none.mp h1

/-- Witness for C10: with products A (stock 5) and `prodCero` (stock 0),
A is listed with positive stock, `prodCero` is not listed, yet
`prodCero` is still served by the detail endpoint. -/
theorem catalogo_solo_en_stock_witness :
    (1:Int) ≤ prodA.stock ∧
    prodCero ∉ catalogo ⟨[prodA, prodCero], [], [], 0, 0⟩ none none none ∧
    producto_detalle ⟨[prodA, prodCero], [], [], 0, 0⟩ prodCero.id ≠ none := by
  have h := catalogo_solo_en_stock ⟨[prodA, prodCero], [], [], 0, 0⟩
    none none none
  exact ⟨h.1 prodA (by decide), h.2.1 prodCero (by decide) (by decide),
    h.2.2 prodCero (by decide)⟩
